import Mathlib

/-!
ImGui-SFML helper (`ish`): the window-drag controller and the event pump.

A shallow embedding of `ish::handle_move` and `ish::handle_events`
(`src/ish/ish.hpp`) together with the properties of the drag gesture.

* Machine integers are `Int`/`Nat` with explicit wrap-around (`wrap32`,
  `toInt32`).
* The three function-local `static` variables of `handle_move` become the
  explicit record `Statics`, threaded through every call.
* The values the windowing library reports during one call
  (`window.getSize()`, `window.getPosition()`, `sf::Mouse::getPosition()`)
  are the record `Frame`; the calls of `window.setPosition` a call makes are
  returned as a list.
-/

namespace ish

/-! ## Machine integers -/

/-- Two's-complement reduction of an integer to the range of `int32_t`. -/
def wrap32 (z : Int) : Int := (z + 2147483648) % 4294967296 - 2147483648

/-- The conversion `static_cast<int32_t>(u)` of an unsigned value. -/
def toInt32 (u : Nat) : Int := wrap32 (Int.ofNat u)

/-- The values of `int32_t`. -/
def InRange32 (z : Int) : Prop := -2147483648 ≤ z ∧ z < 2147483648

instance (z : Int) : Decidable (InRange32 z) := by
  unfold InRange32; infer_instance

/-! ## Vectors and rectangles -/

/-- The pair `Vector2<T>` (`ish::Vector2`, `sf::Vector2`); both fields default to zero. -/
structure Vector2 (T : Type) where
  x : T
  y : T
deriving DecidableEq

/-- The type `sf::Vector2i`. -/
abbrev Vector2i := Vector2 Int

/-- The type `sf::Vector2u`. -/
abbrev Vector2u := Vector2 Nat

/-- The default-constructed `sf::Vector2i`. -/
def Vector2i.zero : Vector2i := ⟨0, 0⟩

/-- The `operator-` of `sf::Vector2i`, component-wise on `int32_t`. -/
def Vector2i.sub (a b : Vector2i) : Vector2i := ⟨wrap32 (a.x - b.x), wrap32 (a.y - b.y)⟩

/-- The `operator+` of `sf::Vector2i`, component-wise on `int32_t`. -/
def Vector2i.add (a b : Vector2i) : Vector2i := ⟨wrap32 (a.x + b.x), wrap32 (a.y + b.y)⟩

/-- The rectangle `sf::Rect<int32_t>`. -/
structure Rect where
  left : Int
  top : Int
  width : Int
  height : Int
deriving DecidableEq

/-- The library's `sf::Rect<int32_t>::contains`: the real minimum and maximum
of the rectangle are taken on both axes (a negative dimension is allowed), the
lower bounds are inclusive and the upper bounds exclusive. -/
def Rect.contains (r : Rect) (x y : Int) : Bool :=
  let minX := min r.left (wrap32 (r.left + r.width))
  let maxX := max r.left (wrap32 (r.left + r.width))
  let minY := min r.top (wrap32 (r.top + r.height))
  let maxY := max r.top (wrap32 (r.top + r.height))
  decide (x ≥ minX) && decide (x < maxX) && decide (y ≥ minY) && decide (y < maxY)

/-! ## Events -/

/-- The codes of `sf::Mouse::Button`; any other integer is a code outside the
recognised set. -/
abbrev Button := Int

/-- The enumerator `sf::Mouse::Left`. -/
def Mouse.Left : Button := 0

/-- The enumerator `sf::Mouse::Right`. -/
def Mouse.Right : Button := 1

/-- The enumerator `sf::Mouse::Middle`. -/
def Mouse.Middle : Button := 2

/-- The tagged union `sf::Event`, with the payload `handle_move` reads:
`mouseButton.{button, x, y}` for presses and releases. `Other` stands for every
event type that neither `handle_move` nor `handle_events` tests for (`Resized`,
`KeyPressed`, ...). -/
inductive Event where
  | Closed
  | MouseButtonPressed (button : Button) (x y : Int)
  | MouseButtonReleased (button : Button) (x y : Int)
  | MouseMoved (x y : Int)
  | Other (type : Nat)
deriving DecidableEq

/-- What the windowing library reports while one event is handled. -/
structure Frame where
  /-- The result of `window.getSize()`. -/
  size : Vector2u
  /-- The result of `window.getPosition()`. -/
  position : Vector2i
  /-- The result of `sf::Mouse::getPosition()`, the global cursor position. -/
  cursor : Vector2i
deriving DecidableEq

/-! ## The drag controller -/

/-- The function-local statics of `handle_move`. `pos` is `none` until the
first call initialises it. -/
structure Statics where
  pos : Option Rect
  grabbedOffset : Vector2i
  grabbedWindow : Bool
deriving DecidableEq

/-- The statics before `handle_move` has ever been called. -/
def Statics.initial : Statics := ⟨none, Vector2i.zero, false⟩

/-- The initialiser of `pos`:
`{ 0, 0, static_cast<int32_t>(window.getSize().x), 20 }`. -/
def titleRect (size : Vector2u) : Rect := ⟨0, 0, toInt32 size.x, 20⟩

/-- The value of the `static const` rectangle `pos` during a call: initialised
from the window on the first call, kept on every later one. -/
def posOf (s : Statics) (window : Frame) : Rect :=
  match s.pos with
  | some r => r
  | none => titleRect window.size

/-- The function `ish::handle_move`. Returns the statics after the call and the
arguments of the `window.setPosition` calls it made, in order. -/
def handle_move (s : Statics) (window : Frame) (event : Event) : Statics × List Vector2i :=
  let pos := posOf s window
  let s := { s with pos := some pos }
  match event with
  | Event.MouseButtonPressed button x y =>
    if pos.contains x y && decide (button = Mouse.Left) then
      ({ s with grabbedOffset := Vector2i.sub window.position window.cursor,
                grabbedWindow := true }, [])
    else (s, [])
  | Event.MouseButtonReleased button _ _ =>
    if button = Mouse.Left then ({ s with grabbedWindow := false }, [])
    else (s, [])
  | Event.MouseMoved _ _ =>
    if s.grabbedWindow then (s, [Vector2i.add window.cursor s.grabbedOffset])
    else (s, [])
  | _ => (s, [])

/-- The condition of the `MouseButtonPressed` case: the press is inside `pos`
and the button is `sf::Mouse::Left`. -/
def qualifies (s : Statics) (window : Frame) (event : Event) : Bool :=
  match event with
  | Event.MouseButtonPressed button x y =>
    (posOf s window).contains x y && decide (button = Mouse.Left)
  | _ => false

/-- A release of the left button. -/
def isLeftRelease (event : Event) : Bool :=
  match event with
  | Event.MouseButtonReleased button _ _ => decide (button = Mouse.Left)
  | _ => false

/-- A `MouseMoved` event. -/
def isMove (event : Event) : Bool :=
  match event with
  | Event.MouseMoved _ _ => true
  | _ => false

/-- A sequence of calls of `handle_move`: the statics after the last call and,
for every call, the `setPosition` calls it made. -/
def run (s : Statics) : List (Event × Frame) → Statics × List (List Vector2i)
  | [] => (s, [])
  | (event, window) :: rest =>
    let r := handle_move s window event
    let t := run r.1 rest
    (t.1, r.2 :: t.2)

/-- The statics each call of a sequence starts from. -/
def statesBefore (s : Statics) : List (Event × Frame) → List Statics
  | [] => []
  | (event, window) :: rest => s :: statesBefore (handle_move s window event).1 rest

/-- The number of `MouseMoved` events of a sequence that arrive while
`grabbedWindow` is set. -/
def movesWhileDragging (s : Statics) (trace : List (Event × Frame)) : Nat :=
  ((trace.zip (statesBefore s trace)).filter
    (fun p => isMove p.1.1 && p.2.grabbedWindow)).length

/-- All the `setPosition` calls of a sequence, in order. -/
def emitted (outs : List (List Vector2i)) : List Vector2i :=
  outs.foldr (fun out acc => out ++ acc) []

/-- The window whose size a history's first call saw; the current one when the
history is empty. -/
def firstFrame (history : List (Event × Frame)) (current : Frame) : Frame :=
  match history with
  | [] => current
  | (_, window) :: _ => window

/-! ## The event pump -/

/-- The window as the event pump sees it: whether it is open, and its queue of
pending events in arrival order, each with what the library reports while it is
handled. -/
structure RenderWindow where
  isOpen : Bool
  events : List (Event × Frame)
deriving DecidableEq

/-- The library's `sf::Window::close` (SFML 2): the window implementation is
destroyed, and its queue of pending events with it. -/
def RenderWindow.close (_w : RenderWindow) : RenderWindow := ⟨false, []⟩

/-- The library's `sf::Window::pollEvent` (SFML 2): `false` (here `none`) when
the window is closed or its queue is empty, else the front event is popped. -/
def RenderWindow.pollEvent (w : RenderWindow) : Option ((Event × Frame) × RenderWindow) :=
  if w.isOpen then
    match w.events with
    | [] => none
    | e :: rest => some (e, { w with events := rest })
  else none

/-- The calls `handle_events` makes on its collaborators, recorded in order:
`ImGui::SFML::ProcessEvent` (it is given the event only, not the window),
`window.close`, `window.setPosition` (from `handle_move`) and the user callback. -/
inductive Call where
  | ProcessEvent (event : Event)
  | close
  | setPosition (position : Vector2i)
  | callback_func (event : Event)
deriving DecidableEq

/-- The state the loop of `handle_events` carries: the statics of
`handle_move`, the window, and the calls made so far. -/
structure Pump where
  statics : Statics
  window : RenderWindow
  calls : List Call
deriving DecidableEq

/-- How a call of `handle_events` ends: it returns; or the callback throws, which
in a `noexcept` function terminates the program; or the model ran out of fuel. -/
inductive Outcome where
  | returned (p : Pump)
  | terminated (p : Pump)
  | outOfFuel
deriving DecidableEq

/-- The loop body of `handle_events` for the polled `event`, up to the point
where the callback is entered; `polledWindow` is the window after `pollEvent`. -/
def pumpStep (p : Pump) (event : Event) (frame : Frame) (polledWindow : RenderWindow) : Pump :=
  let calls := p.calls ++ [Call.ProcessEvent event]
  let closed := decide (event = Event.Closed)
  let window := if closed then polledWindow.close else polledWindow
  let calls := if closed then calls ++ [Call.close] else calls
  let r := handle_move p.statics frame event
  let calls := calls ++ r.2.map Call.setPosition
  let calls := calls ++ [Call.callback_func event]
  ⟨r.1, window, calls⟩

/-- The function `ish::handle_events`. The user callback is any function: given
the event, it does to the window what it likes (close it, reopen it, queue
events) or throws (`none`). The loop runs while `window.pollEvent` delivers an
event; `fuel` bounds the number of iterations. -/
def handle_events (callback_func : Event → RenderWindow → Option RenderWindow) :
    Nat → Pump → Outcome
  | 0, _ => Outcome.outOfFuel
  | fuel + 1, p =>
    match p.window.pollEvent with
    | none => Outcome.returned p
    | some ((event, frame), polledWindow) =>
      let q := pumpStep p event frame polledWindow
      match callback_func event q.window with
      | none => Outcome.terminated q
      | some window => handle_events callback_func fuel { q with window := window }

/-- The events of a queue up to and including its first `Closed` event; the
whole queue when it has none. -/
def upToClosed : List (Event × Frame) → List (Event × Frame)
  | [] => []
  | (event, frame) :: rest =>
    if event = Event.Closed then [(event, frame)] else (event, frame) :: upToClosed rest

/-- The events a window delivers to a loop that closes it on `Closed`: none when
it is closed already, else its queue up to and including the first `Closed`. -/
def polledOf (w : RenderWindow) : List (Event × Frame) :=
  if w.isOpen then upToClosed w.events else []

/-- The calls one event causes, given the `setPosition` calls of `handle_move`. -/
def callsOf (event : Event) (moves : List Vector2i) : List Call :=
  [Call.ProcessEvent event] ++ (if event = Event.Closed then [Call.close] else [])
    ++ moves.map Call.setPosition ++ [Call.callback_func event]

/-- The calls a polled sequence causes: for every event in arrival order, its
`callsOf` with the `setPosition` calls `handle_move` makes on it. -/
def callsOfAll (s : Statics) : List (Event × Frame) → List Call
  | [] => []
  | (event, window) :: polled =>
    callsOf event (handle_move s window event).2 ++
      callsOfAll (handle_move s window event).1 polled

/-- The events the user callback was invoked with, in order. -/
def callbacks : List Call → List Event
  | [] => []
  | Call.callback_func event :: rest => event :: callbacks rest
  | _ :: rest => callbacks rest

/-! ## Arithmetic of `int32_t` -/

theorem wrap32_inRange (z : Int) : InRange32 (wrap32 z) := by
  unfold InRange32 wrap32; omega

theorem wrap32_of_inRange (z : Int) (h : InRange32 z) : wrap32 z = z := by
  unfold InRange32 at h; unfold wrap32; omega

theorem toInt32_of_lt (u : Nat) (h : u < 2147483648) : toInt32 u = Int.ofNat u := by
  unfold toInt32 wrap32; simp only [Int.ofNat_eq_coe]; omega

theorem wrap32_add_sub_cancel (w c : Int) (h : InRange32 w) :
    wrap32 (c + wrap32 (w - c)) = w := by
  unfold InRange32 at h; unfold wrap32; omega

theorem wrap32_add_comm_sub (p c d : Int) :
    wrap32 (d + wrap32 (p - c)) = wrap32 (p + wrap32 (d - c)) := by
  unfold wrap32; omega

theorem wrap32_sub_add_cancel (d o : Int) (h : InRange32 o) :
    wrap32 (wrap32 (d + o) - d) = o := by
  unfold InRange32 at h; unfold wrap32; omega

theorem Vector2i.add_sub_self (w c : Vector2i) (hx : InRange32 w.x) (hy : InRange32 w.y) :
    Vector2i.add c (Vector2i.sub w c) = w := by
  cases w; cases c
  simp only [Vector2i.add, Vector2i.sub] at *
  rw [wrap32_add_sub_cancel _ _ hx, wrap32_add_sub_cancel _ _ hy]

theorem Vector2i.add_sub_comm (p c d : Vector2i) :
    Vector2i.add d (Vector2i.sub p c) = Vector2i.add p (Vector2i.sub d c) := by
  simp only [Vector2i.add, Vector2i.sub]
  rw [wrap32_add_comm_sub p.x c.x d.x, wrap32_add_comm_sub p.y c.y d.y]

theorem Vector2i.sub_add_self (d p c : Vector2i) :
    Vector2i.sub (Vector2i.add d (Vector2i.sub p c)) d = Vector2i.sub p c := by
  simp only [Vector2i.add, Vector2i.sub]
  rw [wrap32_sub_add_cancel _ _ (wrap32_inRange _), wrap32_sub_add_cancel _ _ (wrap32_inRange _)]

/-- Without overflow the offset is the integer difference. -/
theorem Vector2i.sub_exact (a b : Vector2i) (hx : InRange32 (a.x - b.x))
    (hy : InRange32 (a.y - b.y)) : Vector2i.sub a b = ⟨a.x - b.x, a.y - b.y⟩ := by
  simp only [Vector2i.sub, wrap32_of_inRange _ hx, wrap32_of_inRange _ hy]

/-! ## The title rectangle -/

theorem contains_titleRect (size : Vector2u) (x y : Int) (hw : size.x < 2147483648) :
    (titleRect size).contains x y = true ↔
      (0 ≤ x ∧ x < Int.ofNat size.x ∧ 0 ≤ y ∧ y < 20) := by
  have h20 : wrap32 (0 + 20) = 20 := by decide
  have hwx : wrap32 (0 + toInt32 size.x) = Int.ofNat size.x := by
    rw [toInt32_of_lt _ hw]; unfold wrap32; simp only [Int.ofNat_eq_coe]; omega
  simp only [Rect.contains, titleRect, h20, hwx, Bool.and_eq_true, decide_eq_true_eq,
    Int.ofNat_eq_coe]
  omega

/-! ## Single calls of `handle_move` -/

theorem handle_move_pos (s : Statics) (window : Frame) (event : Event) :
    (handle_move s window event).1.pos = some (posOf s window) := by
  unfold handle_move
  cases event <;> simp only [] <;> split <;> rfl

theorem posOf_of_pos (s : Statics) (r : Rect) (window : Frame) (h : s.pos = some r) :
    posOf s window = r := by
  unfold posOf; rw [h]

theorem posOf_handle_move (s : Statics) (window window2 : Frame) (event : Event) :
    posOf (handle_move s window event).1 window2 = posOf s window :=
  posOf_of_pos _ _ _ (handle_move_pos s window event)

theorem handle_move_pressed_hit (s : Statics) (window : Frame) (button : Button) (x y : Int)
    (hin : (posOf s window).contains x y = true) (hb : button = Mouse.Left) :
    handle_move s window (Event.MouseButtonPressed button x y) =
      (⟨some (posOf s window), Vector2i.sub window.position window.cursor, true⟩, []) := by
  simp [handle_move, hin, hb]

theorem handle_move_pressed_miss (s : Statics) (window : Frame) (button : Button) (x y : Int)
    (h : (posOf s window).contains x y = false ∨ button ≠ Mouse.Left) :
    handle_move s window (Event.MouseButtonPressed button x y) =
      (⟨some (posOf s window), s.grabbedOffset, s.grabbedWindow⟩, []) := by
  rcases h with h | h <;> simp [handle_move, h]

theorem handle_move_released_left (s : Statics) (window : Frame) (x y : Int) :
    handle_move s window (Event.MouseButtonReleased Mouse.Left x y) =
      (⟨some (posOf s window), s.grabbedOffset, false⟩, []) := by
  simp [handle_move]

theorem handle_move_released_other (s : Statics) (window : Frame) (button : Button) (x y : Int)
    (h : button ≠ Mouse.Left) :
    handle_move s window (Event.MouseButtonReleased button x y) =
      (⟨some (posOf s window), s.grabbedOffset, s.grabbedWindow⟩, []) := by
  simp [handle_move, h]

theorem handle_move_moved_grabbed (s : Statics) (window : Frame) (x y : Int)
    (h : s.grabbedWindow = true) :
    handle_move s window (Event.MouseMoved x y) =
      (⟨some (posOf s window), s.grabbedOffset, true⟩,
        [Vector2i.add window.cursor s.grabbedOffset]) := by
  simp [handle_move, h]

theorem handle_move_moved_idle (s : Statics) (window : Frame) (x y : Int)
    (h : s.grabbedWindow = false) :
    handle_move s window (Event.MouseMoved x y) =
      (⟨some (posOf s window), s.grabbedOffset, false⟩, []) := by
  simp [handle_move, h]

theorem handle_move_closed (s : Statics) (window : Frame) :
    handle_move s window Event.Closed =
      (⟨some (posOf s window), s.grabbedOffset, s.grabbedWindow⟩, []) := by
  simp [handle_move]

theorem handle_move_other (s : Statics) (window : Frame) (type : Nat) :
    handle_move s window (Event.Other type) =
      (⟨some (posOf s window), s.grabbedOffset, s.grabbedWindow⟩, []) := by
  simp [handle_move]

/-- An event that is neither a left release nor a qualifying press keeps the
grab flag and the offset. -/
theorem handle_move_keeps (s : Statics) (window : Frame) (event : Event)
    (hr : isLeftRelease event = false) (hq : qualifies s window event = false) :
    (handle_move s window event).1.grabbedWindow = s.grabbedWindow ∧
      (handle_move s window event).1.grabbedOffset = s.grabbedOffset := by
  cases event with
  | Closed => simp [handle_move_closed]
  | Other t => simp [handle_move_other]
  | MouseMoved x y =>
    cases hg : s.grabbedWindow
    · simp [handle_move_moved_idle _ _ _ _ hg]
    · simp [handle_move_moved_grabbed _ _ _ _ hg]
  | MouseButtonReleased b x y =>
    have hb : b ≠ Mouse.Left := by simpa [isLeftRelease] using hr
    simp [handle_move_released_other _ _ _ _ _ hb]
  | MouseButtonPressed b x y =>
    have h : (posOf s window).contains x y = false ∨ b ≠ Mouse.Left := by
      simp only [qualifies, Bool.and_eq_false_iff, decide_eq_false_iff_not] at hq
      exact hq
    simp [handle_move_pressed_miss _ _ _ _ _ h]

/-- An event other than a left release never clears the grab flag. -/
theorem handle_move_stays_grabbed (s : Statics) (window : Frame) (event : Event)
    (hr : isLeftRelease event = false) (hg : s.grabbedWindow = true) :
    (handle_move s window event).1.grabbedWindow = true := by
  cases hq : qualifies s window event
  · rw [(handle_move_keeps s window event hr hq).1, hg]
  · cases event with
    | MouseButtonPressed b x y =>
      simp only [qualifies, Bool.and_eq_true, decide_eq_true_eq] at hq
      rw [handle_move_pressed_hit _ _ _ _ _ hq.1 hq.2]
    | _ => simp [qualifies] at hq

/-- Every call makes at most one `setPosition` call. -/
theorem handle_move_length_le (s : Statics) (window : Frame) (event : Event) :
    (handle_move s window event).2.length ≤ 1 := by
  unfold handle_move
  cases event <;> simp only [] <;> first | (split <;> simp) | simp

/-- No call makes a `setPosition` call while the grab flag is clear. -/
theorem handle_move_idle_silent (s : Statics) (window : Frame) (event : Event)
    (hg : s.grabbedWindow = false) : (handle_move s window event).2 = [] := by
  unfold handle_move
  cases event <;> simp only [] <;> split <;> simp_all

/-- The number of `setPosition` calls of one call. -/
theorem handle_move_length (s : Statics) (window : Frame) (event : Event) :
    (handle_move s window event).2.length =
      if (isMove event && s.grabbedWindow) = true then 1 else 0 := by
  unfold handle_move
  cases event <;> simp only [isMove] <;> split <;> simp_all

/-! ## Sequences of calls -/

theorem run_cons (s : Statics) (event : Event) (window : Frame) (rest : List (Event × Frame)) :
    run s ((event, window) :: rest) =
      ((run (handle_move s window event).1 rest).1,
        (handle_move s window event).2 :: (run (handle_move s window event).1 rest).2) := rfl

theorem run_append (s : Statics) (xs ys : List (Event × Frame)) :
    run s (xs ++ ys) = ((run (run s xs).1 ys).1, (run s xs).2 ++ (run (run s xs).1 ys).2) := by
  induction xs generalizing s with
  | nil => rfl
  | cons p xs ih =>
    obtain ⟨event, window⟩ := p
    simp only [List.cons_append, run_cons, ih]

/-- Once initialised the rectangle never changes. -/
theorem run_pos (s : Statics) (r : Rect) (h : s.pos = some r) (trace : List (Event × Frame)) :
    (run s trace).1.pos = some r := by
  induction trace generalizing s with
  | nil => exact h
  | cons p rest ih =>
    obtain ⟨event, window⟩ := p
    rw [run_cons]
    apply ih
    rw [handle_move_pos, posOf_of_pos s r window h]

/-- The rectangle after a non-empty history is the one its first call saw. -/
theorem run_pos_initial (event : Event) (window : Frame) (rest : List (Event × Frame)) :
    (run Statics.initial ((event, window) :: rest)).1.pos = some (titleRect window.size) := by
  rw [run_cons]
  apply run_pos
  rw [handle_move_pos]
  rfl

/-- Without a left release the grab flag stays set. -/
theorem run_stays_grabbed (s : Statics) (trace : List (Event × Frame))
    (hg : s.grabbedWindow = true) (hr : ∀ p ∈ trace, isLeftRelease p.1 = false) :
    (run s trace).1.grabbedWindow = true := by
  induction trace generalizing s with
  | nil => exact hg
  | cons p rest ih =>
    obtain ⟨event, window⟩ := p
    rw [run_cons]
    apply ih
    · exact handle_move_stays_grabbed s window event (hr _ (List.mem_cons_self _ _)) hg
    · intro q hq
      exact hr q (List.mem_cons_of_mem _ hq)

/-- Without a qualifying press the grab flag stays clear and nothing is emitted. -/
theorem run_stays_idle (s : Statics) (r : Rect) (hp : s.pos = some r)
    (trace : List (Event × Frame)) (hg : s.grabbedWindow = false)
    (hq : ∀ p ∈ trace, qualifies s p.2 p.1 = false) :
    (run s trace).1.grabbedWindow = false ∧ ∀ out ∈ (run s trace).2, out = [] := by
  induction trace generalizing s with
  | nil => exact ⟨hg, by simp [run]⟩
  | cons p rest ih =>
    obtain ⟨event, window⟩ := p
    rw [run_cons]
    have hq0 : qualifies s window event = false := hq _ (List.mem_cons_self _ _)
    have hpos1 : (handle_move s window event).1.pos = some r := by
      rw [handle_move_pos, posOf_of_pos s r window hp]
    have hg1 : (handle_move s window event).1.grabbedWindow = false := by
      cases hr : isLeftRelease event
      · rw [(handle_move_keeps s window event hr hq0).1, hg]
      · cases event with
        | MouseButtonReleased b x y =>
          have hb : b = Mouse.Left := by simpa [isLeftRelease] using hr
          rw [hb, handle_move_released_left]
        | _ => simp [isLeftRelease] at hr
    have hq1 : ∀ p ∈ rest, qualifies (handle_move s window event).1 p.2 p.1 = false := by
      intro p hp1
      have := hq p (List.mem_cons_of_mem _ hp1)
      unfold qualifies at this ⊢
      rw [posOf_of_pos _ r _ hpos1]
      rw [posOf_of_pos _ r _ hp] at this
      exact this
    obtain ⟨h1, h2⟩ := ih _ hpos1 hg1 hq1
    refine ⟨h1, ?_⟩
    intro out hout
    rcases List.mem_cons.mp hout with h | h
    · rw [h]; exact handle_move_idle_silent s window event hg
    · exact h2 out h

/-! ## Hit test of a press -/

/-- C1, as stated, fails for a width that `int32_t` cannot hold: with the window
2147483648 units wide an idle controller does not start a drag on a left press at
(5, 5), although `0 <= 5 < 2147483648` and `0 <= 5 < 20`. -/
theorem wide_window_press_is_missed :
    ¬ ((handle_move Statics.initial ⟨⟨2147483648, 400⟩, ⟨100, 100⟩, ⟨105, 105⟩⟩
          (Event.MouseButtonPressed Mouse.Left 5 5)).1.grabbedWindow = true ↔
        (Mouse.Left = Mouse.Left ∧ (0 : Int) ≤ 5 ∧ (5 : Int) < Int.ofNat 2147483648 ∧
          (0 : Int) ≤ 5 ∧ (5 : Int) < 20)) := by
  decide

/-- C1 (amended): for every window width `w` below 2^31 that is unchanged since
the controller was first invoked, every idle controller state and every press,
the controller is dragging after the press if and only if the button is the left
one and `0 <= x < w` and `0 <= y < 20`; after such a press, whatever events
without a left release follow, a `MouseMoved` makes exactly one `setPosition`
call. -/
theorem press_hit_test (w : Nat) (hw : w < 2147483648) (s : Statics) (window : Frame)
    (hsize : window.size.x = w) (hpos : posOf s window = titleRect window.size)
    (hidle : s.grabbedWindow = false) (button : Button) (x y : Int) :
    ((handle_move s window (Event.MouseButtonPressed button x y)).1.grabbedWindow = true ↔
        (button = Mouse.Left ∧ 0 ≤ x ∧ x < Int.ofNat w ∧ 0 ≤ y ∧ y < 20)) ∧
      ((button = Mouse.Left ∧ 0 ≤ x ∧ x < Int.ofNat w ∧ 0 ≤ y ∧ y < 20) →
        ∀ between : List (Event × Frame), (∀ p ∈ between, isLeftRelease p.1 = false) →
          ∀ (window2 : Frame) (x2 y2 : Int), ∃ c,
            (handle_move
              (run (handle_move s window (Event.MouseButtonPressed button x y)).1 between).1
              window2 (Event.MouseMoved x2 y2)).2 = [c]) := by
  have hiff : (handle_move s window (Event.MouseButtonPressed button x y)).1.grabbedWindow
        = true ↔ (button = Mouse.Left ∧ 0 ≤ x ∧ x < Int.ofNat w ∧ 0 ≤ y ∧ y < 20) := by
    have hc := contains_titleRect window.size x y (by rw [hsize]; exact hw)
    rw [hsize] at hc
    constructor
    · intro hg
      by_cases hin : (posOf s window).contains x y = true ∧ button = Mouse.Left
      · rw [hpos] at hin
        exact ⟨hin.2, hc.mp hin.1⟩
      · have hmiss : (posOf s window).contains x y = false ∨ button ≠ Mouse.Left := by
          by_cases h1 : (posOf s window).contains x y = true
          · exact Or.inr (fun hb => hin ⟨h1, hb⟩)
          · exact Or.inl (by simpa using h1)
        rw [handle_move_pressed_miss _ _ _ _ _ hmiss] at hg
        simp only [hidle] at hg
        exact absurd hg (by decide)
    · rintro ⟨hb, hxy⟩
      have hin : (posOf s window).contains x y = true := by rw [hpos]; exact hc.mpr hxy
      rw [handle_move_pressed_hit _ _ _ _ _ hin hb]
  refine ⟨hiff, ?_⟩
  intro hq between hbetween window2 x2 y2
  have hg := run_stays_grabbed _ between (hiff.mpr hq) hbetween
  exact ⟨_, by rw [handle_move_moved_grabbed _ _ _ _ hg]⟩

/-- C1 (amended), at a concrete input: a 900 units wide window, a left press at
(50, 5), then a right press and a right release, then a move. -/
theorem press_hit_test_witness :
    (handle_move Statics.initial ⟨⟨900, 400⟩, ⟨100, 100⟩, ⟨150, 105⟩⟩
        (Event.MouseButtonPressed Mouse.Left 50 5)).1.grabbedWindow = true ∧
      ∃ c, (handle_move
        (run (handle_move Statics.initial ⟨⟨900, 400⟩, ⟨100, 100⟩, ⟨150, 105⟩⟩
            (Event.MouseButtonPressed Mouse.Left 50 5)).1
          [(Event.MouseButtonPressed Mouse.Right 60 5, ⟨⟨900, 400⟩, ⟨100, 100⟩, ⟨160, 105⟩⟩),
           (Event.MouseButtonReleased Mouse.Right 60 5, ⟨⟨900, 400⟩, ⟨100, 100⟩, ⟨160, 105⟩⟩)]).1
        ⟨⟨900, 400⟩, ⟨100, 100⟩, ⟨160, 110⟩⟩ (Event.MouseMoved 60 10)).2 = [c] :=
  have h := press_hit_test 900 (by decide) Statics.initial ⟨⟨900, 400⟩, ⟨100, 100⟩, ⟨150, 105⟩⟩
    rfl rfl rfl Mouse.Left 50 5
  have hq : Mouse.Left = Mouse.Left ∧ (0 : Int) ≤ 50 ∧ (50 : Int) < Int.ofNat 900 ∧
      (0 : Int) ≤ 5 ∧ (5 : Int) < 20 := by decide
  ⟨h.1.mpr hq, h.2 hq _ (by decide) _ 60 10⟩

/-! ## Grab and move arithmetic -/

/-- C2: from every controller state, a left press inside the rectangle, taken
with window position `P` and global cursor `C`, sets the grab flag and the offset
`P - C` (component-wise, in `int32_t`) and makes no `setPosition` call; a
following `MouseMoved` taken with global cursor `C2` makes exactly the call
`setPosition(C2 + offset)`. -/
theorem grab_and_move (s : Statics) (window : Frame) (button : Button) (x y : Int)
    (hb : button = Mouse.Left) (hin : (posOf s window).contains x y = true)
    (window2 : Frame) (x2 y2 : Int) :
    (handle_move s window (Event.MouseButtonPressed button x y)).1.grabbedWindow = true ∧
      (handle_move s window (Event.MouseButtonPressed button x y)).1.grabbedOffset =
        Vector2i.sub window.position window.cursor ∧
      (handle_move s window (Event.MouseButtonPressed button x y)).2 = [] ∧
      (handle_move (handle_move s window (Event.MouseButtonPressed button x y)).1 window2
          (Event.MouseMoved x2 y2)).2 =
        [Vector2i.add window2.cursor (Vector2i.sub window.position window.cursor)] := by
  rw [handle_move_pressed_hit _ _ _ _ _ hin hb]
  refine ⟨rfl, rfl, rfl, ?_⟩
  rw [handle_move_moved_grabbed _ _ _ _ rfl]

/-- C2, at the scenario of the specification: window 900x400 at (100,100), press
at (50,5) with the cursor at (150,105) gives the offset (-50,-5), and a move with
the cursor at (160,110) calls `setPosition(110,105)`. -/
theorem grab_and_move_witness :
    (handle_move Statics.initial ⟨⟨900, 400⟩, ⟨100, 100⟩, ⟨150, 105⟩⟩
        (Event.MouseButtonPressed Mouse.Left 50 5)).1.grabbedWindow = true ∧
      (handle_move Statics.initial ⟨⟨900, 400⟩, ⟨100, 100⟩, ⟨150, 105⟩⟩
        (Event.MouseButtonPressed Mouse.Left 50 5)).1.grabbedOffset = ⟨-50, -5⟩ ∧
      (handle_move (handle_move Statics.initial ⟨⟨900, 400⟩, ⟨100, 100⟩, ⟨150, 105⟩⟩
          (Event.MouseButtonPressed Mouse.Left 50 5)).1
        ⟨⟨900, 400⟩, ⟨100, 100⟩, ⟨160, 110⟩⟩ (Event.MouseMoved 60 10)).2 = [⟨110, 105⟩] :=
  have h := grab_and_move Statics.initial ⟨⟨900, 400⟩, ⟨100, 100⟩, ⟨150, 105⟩⟩ Mouse.Left 50 5
    rfl (by decide) ⟨⟨900, 400⟩, ⟨100, 100⟩, ⟨160, 110⟩⟩ 60 10
  ⟨h.1, h.2.1.trans (by decide), h.2.2.2.trans (by decide)⟩

/-! ## Round trip -/

/-- C5: for every window position inside `int32_t` and every global cursor
position, a qualifying press followed by a `MouseMoved` taken with the same
global cursor position makes exactly the call `setPosition(window position)`. -/
theorem round_trip_no_drift (s : Statics) (window : Frame) (button : Button) (x y : Int)
    (hb : button = Mouse.Left) (hin : (posOf s window).contains x y = true)
    (hx : InRange32 window.position.x) (hy : InRange32 window.position.y)
    (window2 : Frame) (hcur : window2.cursor = window.cursor) (x2 y2 : Int) :
    (handle_move (handle_move s window (Event.MouseButtonPressed button x y)).1 window2
        (Event.MouseMoved x2 y2)).2 = [window.position] := by
  rw [handle_move_pressed_hit _ _ _ _ _ hin hb, handle_move_moved_grabbed _ _ _ _ rfl, hcur,
    Vector2i.add_sub_self _ _ hx hy]

/-- C5, at a concrete input where the offset overflows `int32_t`: window at
(2147483647, -2147483648), cursor at (-5, 7). -/
theorem round_trip_no_drift_witness :
    (handle_move (handle_move Statics.initial
          ⟨⟨900, 400⟩, ⟨2147483647, -2147483648⟩, ⟨-5, 7⟩⟩
          (Event.MouseButtonPressed Mouse.Left 50 5)).1
        ⟨⟨900, 400⟩, ⟨0, 0⟩, ⟨-5, 7⟩⟩ (Event.MouseMoved 50 5)).2 =
      [⟨2147483647, -2147483648⟩] :=
  round_trip_no_drift Statics.initial ⟨⟨900, 400⟩, ⟨2147483647, -2147483648⟩, ⟨-5, 7⟩⟩
    Mouse.Left 50 5 rfl (by decide) (by decide) (by decide) ⟨⟨900, 400⟩, ⟨0, 0⟩, ⟨-5, 7⟩⟩ rfl 50 5

/-! ## Number of commands on a trace -/

theorem emitted_cons (out : List Vector2i) (outs : List (List Vector2i)) :
    emitted (out :: outs) = out ++ emitted outs := rfl

/-- The count of C3 from any starting statics. -/
theorem emitted_length_from (s : Statics) (trace : List (Event × Frame)) :
    (emitted (run s trace).2).length = movesWhileDragging s trace := by
  induction trace generalizing s with
  | nil => rfl
  | cons p rest ih =>
    obtain ⟨event, window⟩ := p
    rw [run_cons, emitted_cons, List.length_append, ih, handle_move_length]
    simp only [movesWhileDragging, statesBefore, List.zip_cons_cons, List.filter_cons]
    split
    · simp_all; omega
    · simp_all

/-- C3: on every finite sequence of events fed to a controller that starts in
the initial state, the number of `setPosition` calls equals the number of
`MouseMoved` events that arrive while the grab flag is set; every event makes at
most one call, and no event makes a call while the grab flag is clear. -/
theorem command_count (trace : List (Event × Frame)) :
    (emitted (run Statics.initial trace).2).length = movesWhileDragging Statics.initial trace ∧
      (∀ (s : Statics) (window : Frame) (event : Event),
        (handle_move s window event).2.length ≤ 1) ∧
      (∀ (s : Statics) (window : Frame) (event : Event),
        s.grabbedWindow = false → (handle_move s window event).2 = []) :=
  ⟨emitted_length_from Statics.initial trace, handle_move_length_le, handle_move_idle_silent⟩

/-- C3, on the scenario of the specification with a move before the press and
one after the release: of four moves, the two inside the bracket are answered. -/
theorem command_count_witness :
    (emitted (run Statics.initial
        [(Event.MouseMoved 40 5, ⟨⟨900, 400⟩, ⟨100, 100⟩, ⟨140, 105⟩⟩),
         (Event.MouseButtonPressed Mouse.Left 50 5, ⟨⟨900, 400⟩, ⟨100, 100⟩, ⟨150, 105⟩⟩),
         (Event.MouseMoved 60 10, ⟨⟨900, 400⟩, ⟨100, 100⟩, ⟨160, 110⟩⟩),
         (Event.MouseMoved 60 10, ⟨⟨900, 400⟩, ⟨110, 105⟩, ⟨170, 115⟩⟩),
         (Event.MouseButtonReleased Mouse.Left 50 5, ⟨⟨900, 400⟩, ⟨120, 110⟩, ⟨170, 115⟩⟩),
         (Event.MouseMoved 70 20, ⟨⟨900, 400⟩, ⟨120, 110⟩, ⟨190, 130⟩⟩)]).2).length = 2 ∧
      (handle_move Statics.initial ⟨⟨900, 400⟩, ⟨100, 100⟩, ⟨140, 105⟩⟩
        (Event.MouseMoved 40 5)).2 = [] :=
  ⟨(command_count _).1.trans (by decide), (command_count []).2.2 _ _ _ rfl⟩

/-! ## The rectangle of the hit test -/

/-- C4, as stated, fails once the window's size has changed: after a first call
with a 900 units wide window, a press taken when the window is 100 units wide
is still tested against the rectangle of width 900, and a left press at (500, 5)
starts a drag. -/
theorem title_region_stale_after_resize :
    posOf (run Statics.initial
        [(Event.MouseMoved 0 0, ⟨⟨900, 400⟩, ⟨100, 100⟩, ⟨100, 100⟩⟩)]).1
        ⟨⟨100, 400⟩, ⟨100, 100⟩, ⟨600, 105⟩⟩ ≠ ⟨0, 0, 100, 20⟩ ∧
      (handle_move (run Statics.initial
        [(Event.MouseMoved 0 0, ⟨⟨900, 400⟩, ⟨100, 100⟩, ⟨100, 100⟩⟩)]).1
        ⟨⟨100, 400⟩, ⟨100, 100⟩, ⟨600, 105⟩⟩
        (Event.MouseButtonPressed Mouse.Left 500 5)).1.grabbedWindow = true := by
  decide

/-- C4 (amended): at every press, for every history of earlier events and earlier
window sizes, the rectangle of the hit test is `{0, 0, w, 20}` where `w` is the
width, converted to `int32_t`, that the window had when the controller was first
invoked (at this press when the history is empty); its height is always 20. -/
theorem title_region_of_first_call (history : List (Event × Frame)) (window : Frame) :
    posOf (run Statics.initial history).1 window =
      ⟨0, 0, toInt32 (firstFrame history window).size.x, 20⟩ := by
  cases history with
  | nil => rfl
  | cons p rest =>
    obtain ⟨event, window0⟩ := p
    rw [posOf_of_pos _ _ _ (run_pos_initial event window0 rest)]
    rfl

/-! ## Release -/

/-- C6: from every controller state and with every window, a release of the left
button clears the grab flag and makes no `setPosition` call; over every sequence
of following events without a qualifying press the flag stays clear and no event
makes a call. -/
theorem release_ends_drag (s : Statics) (window : Frame) (x y : Int)
    (following : List (Event × Frame))
    (hq : ∀ p ∈ following,
      qualifies (handle_move s window (Event.MouseButtonReleased Mouse.Left x y)).1 p.2 p.1
        = false) :
    (handle_move s window (Event.MouseButtonReleased Mouse.Left x y)).1.grabbedWindow = false ∧
      (handle_move s window (Event.MouseButtonReleased Mouse.Left x y)).2 = [] ∧
      (run (handle_move s window (Event.MouseButtonReleased Mouse.Left x y)).1
        following).1.grabbedWindow = false ∧
      ∀ out ∈ (run (handle_move s window (Event.MouseButtonReleased Mouse.Left x y)).1
        following).2, out = [] := by
  have h := run_stays_idle _ _ (handle_move_pos s window _) following
    (by rw [handle_move_released_left]) hq
  refine ⟨by rw [handle_move_released_left], by rw [handle_move_released_left], h.1, h.2⟩

/-- C6, at a concrete input: a drag in progress is released, then a move, a
right press inside the strip, a left press below the strip and another move
follow. -/
theorem release_ends_drag_witness :
    (handle_move ⟨some ⟨0, 0, 900, 20⟩, ⟨-50, -5⟩, true⟩
        ⟨⟨900, 400⟩, ⟨110, 105⟩, ⟨160, 110⟩⟩
        (Event.MouseButtonReleased Mouse.Left 50 5)).1.grabbedWindow = false ∧
      (run (handle_move ⟨some ⟨0, 0, 900, 20⟩, ⟨-50, -5⟩, true⟩
          ⟨⟨900, 400⟩, ⟨110, 105⟩, ⟨160, 110⟩⟩ (Event.MouseButtonReleased Mouse.Left 50 5)).1
        [(Event.MouseMoved 60 10, ⟨⟨900, 400⟩, ⟨110, 105⟩, ⟨170, 115⟩⟩),
         (Event.MouseButtonPressed Mouse.Right 10 5, ⟨⟨900, 400⟩, ⟨110, 105⟩, ⟨120, 110⟩⟩),
         (Event.MouseButtonPressed Mouse.Left 50 25, ⟨⟨900, 400⟩, ⟨110, 105⟩, ⟨160, 130⟩⟩),
         (Event.MouseMoved 61 11, ⟨⟨900, 400⟩, ⟨110, 105⟩, ⟨171, 116⟩⟩)]).1.grabbedWindow
        = false ∧
      ∀ out ∈ (run (handle_move ⟨some ⟨0, 0, 900, 20⟩, ⟨-50, -5⟩, true⟩
          ⟨⟨900, 400⟩, ⟨110, 105⟩, ⟨160, 110⟩⟩ (Event.MouseButtonReleased Mouse.Left 50 5)).1
        [(Event.MouseMoved 60 10, ⟨⟨900, 400⟩, ⟨110, 105⟩, ⟨170, 115⟩⟩),
         (Event.MouseButtonPressed Mouse.Right 10 5, ⟨⟨900, 400⟩, ⟨110, 105⟩, ⟨120, 110⟩⟩),
         (Event.MouseButtonPressed Mouse.Left 50 25, ⟨⟨900, 400⟩, ⟨110, 105⟩, ⟨160, 130⟩⟩),
         (Event.MouseMoved 61 11, ⟨⟨900, 400⟩, ⟨110, 105⟩, ⟨171, 116⟩⟩)]).2, out = [] :=
  have h := release_ends_drag ⟨some ⟨0, 0, 900, 20⟩, ⟨-50, -5⟩, true⟩
    ⟨⟨900, 400⟩, ⟨110, 105⟩, ⟨160, 110⟩⟩ 50 5
    [(Event.MouseMoved 60 10, ⟨⟨900, 400⟩, ⟨110, 105⟩, ⟨170, 115⟩⟩),
     (Event.MouseButtonPressed Mouse.Right 10 5, ⟨⟨900, 400⟩, ⟨110, 105⟩, ⟨120, 110⟩⟩),
     (Event.MouseButtonPressed Mouse.Left 50 25, ⟨⟨900, 400⟩, ⟨110, 105⟩, ⟨160, 130⟩⟩),
     (Event.MouseMoved 61 11, ⟨⟨900, 400⟩, ⟨110, 105⟩, ⟨171, 116⟩⟩)] (by decide)
  ⟨h.1, h.2.2.1, h.2.2.2⟩

/-! ## Events that do not match -/

/-- C7: from every controller state, the grab flag and the offset are unchanged
and no `setPosition` call is made by a press whose button is not the left one
(whatever its code) or whose point is outside the rectangle, by a release whose
button is not the left one, and by every event of another kind than press,
release and move. -/
theorem non_matching_untouched (s : Statics) (window : Frame) (event : Event)
    (h : (∃ b x y, event = Event.MouseButtonPressed b x y ∧
            (b ≠ Mouse.Left ∨ (posOf s window).contains x y = false)) ∨
         (∃ b x y, event = Event.MouseButtonReleased b x y ∧ b ≠ Mouse.Left) ∨
         event = Event.Closed ∨ ∃ t, event = Event.Other t) :
    (handle_move s window event).1.grabbedWindow = s.grabbedWindow ∧
      (handle_move s window event).1.grabbedOffset = s.grabbedOffset ∧
      (handle_move s window event).2 = [] := by
  rcases h with ⟨b, x, y, rfl, hb⟩ | ⟨b, x, y, rfl, hb⟩ | rfl | ⟨t, rfl⟩
  · rw [handle_move_pressed_miss _ _ _ _ _ hb.symm]
    exact ⟨rfl, rfl, rfl⟩
  · rw [handle_move_released_other _ _ _ _ _ hb]
    exact ⟨rfl, rfl, rfl⟩
  · rw [handle_move_closed]
    exact ⟨rfl, rfl, rfl⟩
  · rw [handle_move_other]
    exact ⟨rfl, rfl, rfl⟩

/-- C7, at a concrete input: while dragging, a press with the button code 99
inside the strip does not end the drag and keeps the offset. -/
theorem non_matching_untouched_witness :
    (handle_move ⟨some ⟨0, 0, 900, 20⟩, ⟨-50, -5⟩, true⟩
        ⟨⟨900, 400⟩, ⟨110, 105⟩, ⟨120, 110⟩⟩
        (Event.MouseButtonPressed 99 10 5)).1.grabbedWindow = true ∧
      (handle_move ⟨some ⟨0, 0, 900, 20⟩, ⟨-50, -5⟩, true⟩
        ⟨⟨900, 400⟩, ⟨110, 105⟩, ⟨120, 110⟩⟩
        (Event.MouseButtonPressed 99 10 5)).1.grabbedOffset = ⟨-50, -5⟩ ∧
      (handle_move ⟨some ⟨0, 0, 900, 20⟩, ⟨-50, -5⟩, true⟩
        ⟨⟨900, 400⟩, ⟨110, 105⟩, ⟨120, 110⟩⟩
        (Event.MouseButtonPressed 99 10 5)).2 = [] :=
  non_matching_untouched ⟨some ⟨0, 0, 900, 20⟩, ⟨-50, -5⟩, true⟩
    ⟨⟨900, 400⟩, ⟨110, 105⟩, ⟨120, 110⟩⟩ (Event.MouseButtonPressed 99 10 5)
    (Or.inl ⟨99, 10, 5, rfl, Or.inl (by decide)⟩)

/-! ## The command of a move -/

/-- C8: two `MouseMoved` calls made while dragging that agree on the stored
offset and on the global cursor position make the same `setPosition` call,
whatever the event's local coordinates, the window's size, the window's position
and the rectangle are; a `MouseMoved` handled a second time with the same global
cursor position makes the same call again, and neither call changes the grab
flag or the offset. -/
theorem move_command_pure (s1 s2 : Statics) (window1 window2 : Frame) (x1 y1 x2 y2 : Int)
    (hg1 : s1.grabbedWindow = true) (hg2 : s2.grabbedWindow = true)
    (hoff : s1.grabbedOffset = s2.grabbedOffset) (hcur : window1.cursor = window2.cursor) :
    (handle_move s1 window1 (Event.MouseMoved x1 y1)).2 =
        (handle_move s2 window2 (Event.MouseMoved x2 y2)).2 ∧
      (handle_move s1 window1 (Event.MouseMoved x1 y1)).2 =
        [Vector2i.add window1.cursor s1.grabbedOffset] ∧
      (handle_move s1 window1 (Event.MouseMoved x1 y1)).1.grabbedWindow = s1.grabbedWindow ∧
      (handle_move s1 window1 (Event.MouseMoved x1 y1)).1.grabbedOffset = s1.grabbedOffset ∧
      (handle_move (handle_move s1 window1 (Event.MouseMoved x1 y1)).1 window2
          (Event.MouseMoved x1 y1)).2 = (handle_move s1 window1 (Event.MouseMoved x1 y1)).2 ∧
      (handle_move (handle_move s1 window1 (Event.MouseMoved x1 y1)).1 window2
          (Event.MouseMoved x1 y1)).1.grabbedWindow = s1.grabbedWindow ∧
      (handle_move (handle_move s1 window1 (Event.MouseMoved x1 y1)).1 window2
          (Event.MouseMoved x1 y1)).1.grabbedOffset = s1.grabbedOffset := by
  rw [handle_move_moved_grabbed _ _ _ _ hg1, handle_move_moved_grabbed _ _ _ _ hg2,
    handle_move_moved_grabbed _ _ _ _ rfl, hoff, hcur, hg1]
  exact ⟨rfl, rfl, rfl, rfl, rfl, rfl, rfl⟩

/-- C8, at a concrete input: two runs with the offset (-50,-5) and the cursor at
(160,110) that differ in the rectangle, the window's size and position and the
event's local coordinates both call `setPosition(110,105)`. -/
theorem move_command_pure_witness :
    (handle_move ⟨some ⟨0, 0, 900, 20⟩, ⟨-50, -5⟩, true⟩
        ⟨⟨900, 400⟩, ⟨100, 100⟩, ⟨160, 110⟩⟩ (Event.MouseMoved 60 10)).2 =
      (handle_move ⟨none, ⟨-50, -5⟩, true⟩
        ⟨⟨640, 480⟩, ⟨7, 9⟩, ⟨160, 110⟩⟩ (Event.MouseMoved 153 101)).2 ∧
      (handle_move ⟨some ⟨0, 0, 900, 20⟩, ⟨-50, -5⟩, true⟩
        ⟨⟨900, 400⟩, ⟨100, 100⟩, ⟨160, 110⟩⟩ (Event.MouseMoved 60 10)).2 = [⟨110, 105⟩] :=
  have h := move_command_pure ⟨some ⟨0, 0, 900, 20⟩, ⟨-50, -5⟩, true⟩ ⟨none, ⟨-50, -5⟩, true⟩
    ⟨⟨900, 400⟩, ⟨100, 100⟩, ⟨160, 110⟩⟩ ⟨⟨640, 480⟩, ⟨7, 9⟩, ⟨160, 110⟩⟩ 60 10 153 101
    rfl rfl rfl rfl
  ⟨h.1, h.2.1.trans (by decide)⟩

/-! ## The press-to-release bracket -/

/-- Over events that are neither a left release nor a qualifying press, the grab
flag and the offset are kept and the calls are those of the moves. -/
theorem run_keeps (s : Statics) (r : Rect) (hp : s.pos = some r)
    (trace : List (Event × Frame))
    (h : ∀ p ∈ trace, isLeftRelease p.1 = false ∧ qualifies s p.2 p.1 = false) :
    (run s trace).1.grabbedWindow = s.grabbedWindow ∧
      (run s trace).1.grabbedOffset = s.grabbedOffset ∧
      (run s trace).2 = trace.map (fun p =>
        if (isMove p.1 && s.grabbedWindow) = true then
          [Vector2i.add p.2.cursor s.grabbedOffset] else []) := by
  induction trace generalizing s with
  | nil => exact ⟨rfl, rfl, rfl⟩
  | cons p rest ih =>
    obtain ⟨event, window⟩ := p
    rw [run_cons]
    have h0 := h _ (List.mem_cons_self _ _)
    have hk := handle_move_keeps s window event h0.1 h0.2
    have hpos1 : (handle_move s window event).1.pos = some r := by
      rw [handle_move_pos, posOf_of_pos s r window hp]
    have h1 : ∀ p ∈ rest, isLeftRelease p.1 = false ∧
        qualifies (handle_move s window event).1 p.2 p.1 = false := by
      intro p hp1
      have := h p (List.mem_cons_of_mem _ hp1)
      refine ⟨this.1, ?_⟩
      have h2 := this.2
      unfold qualifies at h2 ⊢
      rw [posOf_of_pos _ r _ hpos1]
      rw [posOf_of_pos _ r _ hp] at h2
      exact h2
    obtain ⟨i1, i2, i3⟩ := ih _ hpos1 h1
    refine ⟨i1.trans hk.1, i2.trans hk.2, ?_⟩
    rw [i3, hk.1, hk.2, List.map_cons]
    cases event with
    | MouseMoved x y =>
      cases hg : s.grabbedWindow
      · simp [handle_move_moved_idle _ _ _ _ hg, isMove]
      · simp [handle_move_moved_grabbed _ _ _ _ hg, isMove]
    | MouseButtonPressed b x y =>
      have hm : (posOf s window).contains x y = false ∨ b ≠ Mouse.Left := by
        have := h0.2
        simp only [qualifies, Bool.and_eq_false_iff, decide_eq_false_iff_not] at this
        exact this
      simp [handle_move_pressed_miss _ _ _ _ _ hm, isMove]
    | MouseButtonReleased b x y =>
      have hb : b ≠ Mouse.Left := by simpa [isLeftRelease] using h0.1
      simp [handle_move_released_other _ _ _ _ _ hb, isMove]
    | Closed => simp [handle_move_closed, isMove]
    | Other t => simp [handle_move_other, isMove]

/-- C9: after a qualifying press taken with window position `P` and global
cursor `C`, over every finite sequence of following events with no release of
the left button and no further qualifying press, the controller stays dragging
with the offset `P - C`, every `MouseMoved` taken with global cursor `C2` makes
exactly the call `setPosition(P + (C2 - C))` and every other event makes none;
the position of each call minus the cursor at that call is the offset. -/
theorem drag_bracket_invariant (s : Statics) (window : Frame) (button : Button) (x y : Int)
    (hb : button = Mouse.Left) (hin : (posOf s window).contains x y = true)
    (following : List (Event × Frame))
    (hf : ∀ p ∈ following, isLeftRelease p.1 = false ∧
      qualifies (handle_move s window (Event.MouseButtonPressed button x y)).1 p.2 p.1 = false) :
    (run (handle_move s window (Event.MouseButtonPressed button x y)).1
        following).1.grabbedWindow = true ∧
      (run (handle_move s window (Event.MouseButtonPressed button x y)).1
        following).1.grabbedOffset = Vector2i.sub window.position window.cursor ∧
      (run (handle_move s window (Event.MouseButtonPressed button x y)).1 following).2 =
        following.map (fun p =>
          if isMove p.1 = true then
            [Vector2i.add window.position (Vector2i.sub p.2.cursor window.cursor)]
          else []) ∧
      ∀ p ∈ following,
        Vector2i.sub (Vector2i.add window.position (Vector2i.sub p.2.cursor window.cursor))
          p.2.cursor = Vector2i.sub window.position window.cursor := by
  obtain ⟨h1, h2, h3⟩ := run_keeps _ _ (handle_move_pos s window _) following hf
  rw [handle_move_pressed_hit _ _ _ _ _ hin hb] at h1 h2 h3 ⊢
  refine ⟨h1, h2, ?_, ?_⟩
  · rw [h3]
    apply List.map_congr_left
    intro p _
    simp only [Bool.and_true]
    rw [Vector2i.add_sub_comm]
  · intro p _
    rw [← Vector2i.add_sub_comm, Vector2i.sub_add_self]

/-- C9, on the scenario of the specification: after the press at (50,5) with the
window at (100,100) and the cursor at (150,105), a move with the cursor at
(160,110), a right press, a press below the strip and a move with the cursor at
(170,90) leave the controller dragging with the offset (-50,-5), and the two
moves call `setPosition(110,105)` and `setPosition(120,85)`. -/
theorem drag_bracket_invariant_witness :
    (run (handle_move Statics.initial ⟨⟨900, 400⟩, ⟨100, 100⟩, ⟨150, 105⟩⟩
          (Event.MouseButtonPressed Mouse.Left 50 5)).1
        [(Event.MouseMoved 60 10, ⟨⟨900, 400⟩, ⟨100, 100⟩, ⟨160, 110⟩⟩),
         (Event.MouseButtonPressed Mouse.Right 60 10, ⟨⟨900, 400⟩, ⟨110, 105⟩, ⟨170, 115⟩⟩),
         (Event.MouseButtonPressed Mouse.Left 60 30, ⟨⟨900, 400⟩, ⟨110, 105⟩, ⟨170, 135⟩⟩),
         (Event.MouseMoved 60 (-15), ⟨⟨900, 400⟩, ⟨110, 105⟩, ⟨170, 90⟩⟩)]).1.grabbedWindow
        = true ∧
      (run (handle_move Statics.initial ⟨⟨900, 400⟩, ⟨100, 100⟩, ⟨150, 105⟩⟩
          (Event.MouseButtonPressed Mouse.Left 50 5)).1
        [(Event.MouseMoved 60 10, ⟨⟨900, 400⟩, ⟨100, 100⟩, ⟨160, 110⟩⟩),
         (Event.MouseButtonPressed Mouse.Right 60 10, ⟨⟨900, 400⟩, ⟨110, 105⟩, ⟨170, 115⟩⟩),
         (Event.MouseButtonPressed Mouse.Left 60 30, ⟨⟨900, 400⟩, ⟨110, 105⟩, ⟨170, 135⟩⟩),
         (Event.MouseMoved 60 (-15), ⟨⟨900, 400⟩, ⟨110, 105⟩, ⟨170, 90⟩⟩)]).1.grabbedOffset
        = ⟨-50, -5⟩ ∧
      (run (handle_move Statics.initial ⟨⟨900, 400⟩, ⟨100, 100⟩, ⟨150, 105⟩⟩
          (Event.MouseButtonPressed Mouse.Left 50 5)).1
        [(Event.MouseMoved 60 10, ⟨⟨900, 400⟩, ⟨100, 100⟩, ⟨160, 110⟩⟩),
         (Event.MouseButtonPressed Mouse.Right 60 10, ⟨⟨900, 400⟩, ⟨110, 105⟩, ⟨170, 115⟩⟩),
         (Event.MouseButtonPressed Mouse.Left 60 30, ⟨⟨900, 400⟩, ⟨110, 105⟩, ⟨170, 135⟩⟩),
         (Event.MouseMoved 60 (-15), ⟨⟨900, 400⟩, ⟨110, 105⟩, ⟨170, 90⟩⟩)]).2
        = [[⟨110, 105⟩], [], [], [⟨120, 85⟩]] :=
  have h := drag_bracket_invariant Statics.initial ⟨⟨900, 400⟩, ⟨100, 100⟩, ⟨150, 105⟩⟩
    Mouse.Left 50 5 rfl (by decide)
    [(Event.MouseMoved 60 10, ⟨⟨900, 400⟩, ⟨100, 100⟩, ⟨160, 110⟩⟩),
     (Event.MouseButtonPressed Mouse.Right 60 10, ⟨⟨900, 400⟩, ⟨110, 105⟩, ⟨170, 115⟩⟩),
     (Event.MouseButtonPressed Mouse.Left 60 30, ⟨⟨900, 400⟩, ⟨110, 105⟩, ⟨170, 135⟩⟩),
     (Event.MouseMoved 60 (-15), ⟨⟨900, 400⟩, ⟨110, 105⟩, ⟨170, 90⟩⟩)] (by decide)
  ⟨h.1, h.2.1.trans (by decide), h.2.2.1.trans (by decide)⟩

/-! ## The event pump -/

theorem callbacks_append (xs ys : List Call) :
    callbacks (xs ++ ys) = callbacks xs ++ callbacks ys := by
  induction xs with
  | nil => rfl
  | cons c xs ih => cases c <;> simp [callbacks, ih]

theorem callbacks_setPosition (moves : List Vector2i) :
    callbacks (moves.map Call.setPosition) = [] := by
  induction moves with
  | nil => rfl
  | cons m moves ih => simpa [callbacks] using ih

theorem callbacks_callsOf (event : Event) (moves : List Vector2i) :
    callbacks (callsOf event moves) = [event] := by
  unfold callsOf
  rw [callbacks_append, callbacks_append, callbacks_append, callbacks_setPosition]
  split <;> simp [callbacks]

theorem callbacks_callsOfAll (s : Statics) (polled : List (Event × Frame)) :
    callbacks (callsOfAll s polled) = polled.map Prod.fst := by
  induction polled generalizing s with
  | nil => rfl
  | cons q polled ih =>
    obtain ⟨event, window⟩ := q
    simp only [callsOfAll, callbacks_append, callbacks_callsOf, ih, List.map_cons,
      List.singleton_append]

theorem pumpStep_calls (p : Pump) (event : Event) (frame : Frame) (w : RenderWindow) :
    (pumpStep p event frame w).calls =
      p.calls ++ callsOf event (handle_move p.statics frame event).2 := by
  unfold pumpStep callsOf
  by_cases h : event = Event.Closed <;> simp [h]

theorem pumpStep_statics (p : Pump) (event : Event) (frame : Frame) (w : RenderWindow) :
    (pumpStep p event frame w).statics = (handle_move p.statics frame event).1 := rfl

theorem pumpStep_window (p : Pump) (event : Event) (frame : Frame) (w : RenderWindow) :
    (pumpStep p event frame w).window = if event = Event.Closed then w.close else w := by
  unfold pumpStep
  by_cases h : event = Event.Closed <;> simp [h]

/-- A closed window delivers nothing: the loop is not entered. -/
theorem handle_events_closed (callback_func : Event → RenderWindow → Option RenderWindow)
    (fuel : Nat) (p : Pump) (hc : p.window.isOpen = false) :
    handle_events callback_func (fuel + 1) p = Outcome.returned p := by
  simp [handle_events, RenderWindow.pollEvent, hc]

/-- An open window with an empty queue delivers nothing. -/
theorem handle_events_empty (callback_func : Event → RenderWindow → Option RenderWindow)
    (fuel : Nat) (p : Pump) (he : p.window.events = []) :
    handle_events callback_func (fuel + 1) p = Outcome.returned p := by
  unfold handle_events RenderWindow.pollEvent
  rw [he]
  cases p.window.isOpen <;> rfl

/-- One iteration on an open window, with a callback that returns and leaves
the window as it is. -/
theorem handle_events_step (callback_func : Event → RenderWindow → Option RenderWindow)
    (hcb : ∀ e w, callback_func e w = some w) (fuel : Nat) (p : Pump)
    (event : Event) (frame : Frame) (rest : List (Event × Frame))
    (ho : p.window.isOpen = true) (he : p.window.events = (event, frame) :: rest) :
    handle_events callback_func (fuel + 1) p =
      handle_events callback_func fuel
        (pumpStep p event frame ⟨true, rest⟩) := by
  have hpoll : p.window.pollEvent = some ((event, frame), ⟨true, rest⟩) := by
    unfold RenderWindow.pollEvent
    rw [ho, he]
    rfl
  rw [handle_events]
  simp only [hpoll, hcb]

theorem upToClosed_mem_closed (events : List (Event × Frame)) :
    Event.Closed ∈ (upToClosed events).map Prod.fst ↔ Event.Closed ∈ events.map Prod.fst := by
  induction events with
  | nil => rfl
  | cons q rest ih =>
    obtain ⟨event, frame⟩ := q
    unfold upToClosed
    by_cases h : event = Event.Closed
    · simp [h]
    · have h2 : ¬ Event.Closed = event := fun e => h e.symm
      simp only [h, if_false, List.map_cons, List.mem_cons, h2, false_or]
      exact ih

/-- A queue without a `Closed` event is delivered whole. -/
theorem upToClosed_of_not_mem (events : List (Event × Frame))
    (h : Event.Closed ∉ events.map Prod.fst) : upToClosed events = events := by
  induction events with
  | nil => rfl
  | cons q rest ih =>
    obtain ⟨event, frame⟩ := q
    simp only [List.map_cons, List.mem_cons, not_or] at h
    have h1 : ¬ event = Event.Closed := fun e => h.1 e.symm
    simp only [upToClosed, h1, if_false, ih h.2]

/-- C10, as stated, fails: with the window open, the queue `[Closed, MouseMoved]`
and a callback that leaves the window alone, the loop ends after the `Closed`
event, because `window.close()` has run and `window.pollEvent` delivers nothing
from a closed window; the callback is not invoked for the event queued after
`Closed`. -/
theorem event_pump_stops_at_closed :
    handle_events (fun _ w => some w) 3
        ⟨Statics.initial,
          ⟨true, [(Event.Closed, ⟨⟨900, 400⟩, ⟨100, 100⟩, ⟨150, 105⟩⟩),
                  (Event.MouseMoved 60 10, ⟨⟨900, 400⟩, ⟨100, 100⟩, ⟨160, 110⟩⟩)]⟩, []⟩ =
      Outcome.returned ⟨⟨some ⟨0, 0, 900, 20⟩, ⟨0, 0⟩, false⟩, ⟨false, []⟩,
        [Call.ProcessEvent Event.Closed, Call.close, Call.callback_func Event.Closed]⟩ ∧
      callbacks [Call.ProcessEvent Event.Closed, Call.close, Call.callback_func Event.Closed] ≠
        [Event.Closed, Event.MouseMoved 60 10] := by
  decide

/-- A callback that closes the window ends the loop although no `Closed` event
was queued: the assumption of C10 (amended) on the callback is needed. -/
theorem event_pump_callback_closes :
    handle_events (fun _ w => some w.close) 3
        ⟨Statics.initial,
          ⟨true, [(Event.MouseMoved 50 10, ⟨⟨900, 400⟩, ⟨100, 100⟩, ⟨150, 110⟩⟩),
                  (Event.MouseMoved 60 10, ⟨⟨900, 400⟩, ⟨100, 100⟩, ⟨160, 110⟩⟩)]⟩, []⟩ =
      Outcome.returned ⟨⟨some ⟨0, 0, 900, 20⟩, ⟨0, 0⟩, false⟩, ⟨false, []⟩,
        [Call.ProcessEvent (Event.MouseMoved 50 10),
         Call.callback_func (Event.MouseMoved 50 10)]⟩ := by
  decide

/-- A callback that throws ends the program inside the `noexcept` function. -/
theorem event_pump_callback_throws :
    handle_events (fun _ _ => none) 3
        ⟨Statics.initial,
          ⟨true, [(Event.MouseMoved 50 10, ⟨⟨900, 400⟩, ⟨100, 100⟩, ⟨150, 110⟩⟩),
                  (Event.MouseMoved 60 10, ⟨⟨900, 400⟩, ⟨100, 100⟩, ⟨160, 110⟩⟩)]⟩, []⟩ =
      Outcome.terminated ⟨⟨some ⟨0, 0, 900, 20⟩, ⟨0, 0⟩, false⟩,
        ⟨true, [(Event.MouseMoved 60 10, ⟨⟨900, 400⟩, ⟨100, 100⟩, ⟨160, 110⟩⟩)]⟩,
        [Call.ProcessEvent (Event.MouseMoved 50 10),
         Call.callback_func (Event.MouseMoved 50 10)]⟩ := by
  decide

theorem polledOf_closed (w : RenderWindow) (hc : w.isOpen = false) : polledOf w = [] := by
  simp [polledOf, hc]

theorem polledOf_cons_closed (w : RenderWindow) (frame : Frame) (rest : List (Event × Frame))
    (ho : w.isOpen = true) (he : w.events = (Event.Closed, frame) :: rest) :
    polledOf w = [(Event.Closed, frame)] := by
  simp [polledOf, ho, he, upToClosed]

theorem polledOf_cons_other (w : RenderWindow) (event : Event) (frame : Frame)
    (rest : List (Event × Frame)) (ho : w.isOpen = true) (he : w.events = (event, frame) :: rest)
    (hne : event ≠ Event.Closed) :
    polledOf w = (event, frame) :: polledOf ⟨true, rest⟩ := by
  simp [polledOf, ho, he, upToClosed, hne]

/-- C10 (amended): for every finite queue of pending events and every callback
that returns and leaves the window as it is, `handle_events` returns (with any
fuel above the length of the queue) after handling, in arrival order, the events
the window delivers: none when the window is closed already, else the queue up
to and including its first `Closed` event, which is the whole queue when it has
no `Closed`. For each of them it calls `ProcessEvent`, then `close` if the event
is `Closed`, then `handle_move`, then the callback; the callback is invoked
exactly once per delivered event, a `Closed` event included; afterwards nothing
is left to poll, and the window is closed if and only if it was closed before or
the queue held a `Closed` event. -/
theorem event_pump_dispatch (callback_func : Event → RenderWindow → Option RenderWindow)
    (hcb : ∀ e w, callback_func e w = some w) (fuel : Nat) (p : Pump)
    (hfuel : p.window.events.length < fuel) :
    ∃ q, handle_events callback_func fuel p = Outcome.returned q ∧
      q.calls = p.calls ++ callsOfAll p.statics (polledOf p.window) ∧
      q.statics = (run p.statics (polledOf p.window)).1 ∧
      callbacks q.calls = callbacks p.calls ++ (polledOf p.window).map Prod.fst ∧
      (q.window.isOpen = false ↔
        (p.window.isOpen = false ∨ Event.Closed ∈ p.window.events.map Prod.fst)) ∧
      q.window.pollEvent = none ∧
      (p.window.isOpen = true → Event.Closed ∉ p.window.events.map Prod.fst →
        polledOf p.window = p.window.events) := by
  have hwhole : ∀ w : RenderWindow, w.isOpen = true → Event.Closed ∉ w.events.map Prod.fst →
      polledOf w = w.events := by
    intro w ho hn
    simp only [polledOf, ho, if_true]
    exact upToClosed_of_not_mem _ hn
  induction fuel generalizing p with
  | zero => exact absurd hfuel (Nat.not_lt_zero _)
  | succ fuel ih =>
    obtain ⟨b, ho⟩ : ∃ b, p.window.isOpen = b := ⟨_, rfl⟩
    cases b with
    | false =>
      refine ⟨p, handle_events_closed callback_func fuel p ho, ?_, ?_, ?_, ?_, ?_, hwhole _⟩
      · rw [polledOf_closed _ ho]; simp [callsOfAll]
      · rw [polledOf_closed _ ho]; rfl
      · rw [polledOf_closed _ ho]; simp
      · simp [ho]
      · simp [RenderWindow.pollEvent, ho]
    | true =>
      obtain ⟨evs, he⟩ : ∃ evs, p.window.events = evs := ⟨_, rfl⟩
      cases evs with
      | nil =>
        have hp : polledOf p.window = [] := by simp [polledOf, ho, he, upToClosed]
        refine ⟨p, handle_events_empty callback_func fuel p he, ?_, ?_, ?_, ?_, ?_, hwhole _⟩
        · rw [hp]; simp [callsOfAll]
        · rw [hp]; rfl
        · rw [hp]; simp
        · simp [ho, he]
        · simp [RenderWindow.pollEvent, ho, he]
      | cons e rest =>
        obtain ⟨event, frame⟩ := e
        have hrest : rest.length < fuel := by
          rw [he] at hfuel
          simp only [List.length_cons] at hfuel; omega
        rw [handle_events_step callback_func hcb fuel p event frame rest ho he]
        by_cases hne : event = Event.Closed
        · subst hne
          have hw : (pumpStep p Event.Closed frame ⟨true, rest⟩).window = ⟨false, []⟩ := by
            rw [pumpStep_window]; rfl
          obtain ⟨q, h0, h1, h2, h3, h4, h5, _⟩ :=
            ih (pumpStep p Event.Closed frame ⟨true, rest⟩)
              (by rw [hw]; exact Nat.lt_of_le_of_lt (Nat.zero_le _) hrest)
          have hp1 : polledOf (pumpStep p Event.Closed frame ⟨true, rest⟩).window = [] := by
            rw [hw]; rfl
          rw [hp1] at h1 h2 h3
          rw [hw] at h4
          have hp : polledOf p.window = [(Event.Closed, frame)] :=
            polledOf_cons_closed _ _ _ ho he
          refine ⟨q, h0, ?_, ?_, ?_, ?_, h5, hwhole _⟩
          · rw [h1, pumpStep_calls, hp]; simp [callsOfAll]
          · rw [h2, pumpStep_statics, hp]; rfl
          · rw [h3, pumpStep_calls, callbacks_append, callbacks_callsOf, hp]; simp
          · simp only [he, List.map_cons, List.mem_cons, true_or, or_true, iff_true]
            exact h4.mpr (Or.inl rfl)
        · have hw : (pumpStep p event frame ⟨true, rest⟩).window = ⟨true, rest⟩ := by
            rw [pumpStep_window]; simp [hne]
          obtain ⟨q, h0, h1, h2, h3, h4, h5, _⟩ :=
            ih (pumpStep p event frame ⟨true, rest⟩) (by rw [hw]; exact hrest)
          rw [hw] at h1 h2 h3 h4
          have hp := polledOf_cons_other _ _ _ _ ho he hne
          have hne2 : ¬ Event.Closed = event := fun h => hne h.symm
          refine ⟨q, h0, ?_, ?_, ?_, ?_, h5, hwhole _⟩
          · rw [h1, pumpStep_calls, pumpStep_statics, hp, List.append_assoc]; rfl
          · rw [h2, pumpStep_statics, hp, run_cons]
          · rw [h3, pumpStep_calls, callbacks_append, callbacks_callsOf, hp, List.append_assoc]
            rfl
          · rw [h4]
            simp [ho, he, hne2]

/-- C10 (amended), at a concrete input: the window is open, the controller is
dragging, and the queue holds a move, a `Closed` event and another move; the
first two are handled and the window ends closed. -/
theorem event_pump_dispatch_witness :
    ∃ q, handle_events (fun _ w => some w) 4
          ⟨⟨some ⟨0, 0, 900, 20⟩, ⟨-50, -5⟩, true⟩,
            ⟨true, [(Event.MouseMoved 60 10, ⟨⟨900, 400⟩, ⟨100, 100⟩, ⟨160, 110⟩⟩),
                    (Event.Closed, ⟨⟨900, 400⟩, ⟨110, 105⟩, ⟨160, 110⟩⟩),
                    (Event.MouseMoved 70 10, ⟨⟨900, 400⟩, ⟨110, 105⟩, ⟨180, 115⟩⟩)]⟩, []⟩ =
          Outcome.returned q ∧
      q.calls = [Call.ProcessEvent (Event.MouseMoved 60 10), Call.setPosition ⟨110, 105⟩,
        Call.callback_func (Event.MouseMoved 60 10), Call.ProcessEvent Event.Closed,
        Call.close, Call.callback_func Event.Closed] ∧
      callbacks q.calls = [Event.MouseMoved 60 10, Event.Closed] ∧
      q.window.isOpen = false :=
  match event_pump_dispatch (fun _ w => some w) (fun _ _ => rfl) 4
      ⟨⟨some ⟨0, 0, 900, 20⟩, ⟨-50, -5⟩, true⟩,
        ⟨true, [(Event.MouseMoved 60 10, ⟨⟨900, 400⟩, ⟨100, 100⟩, ⟨160, 110⟩⟩),
                (Event.Closed, ⟨⟨900, 400⟩, ⟨110, 105⟩, ⟨160, 110⟩⟩),
                (Event.MouseMoved 70 10, ⟨⟨900, 400⟩, ⟨110, 105⟩, ⟨180, 115⟩⟩)]⟩, []⟩
      (by decide) with
  | ⟨q, h0, h1, _, h3, h4, _⟩ =>
    ⟨q, h0, h1.trans (by decide), h3.trans (by decide), h4.mpr (Or.inr (by decide))⟩

end ish
